import Mathlib

/-!
Verification of the structural-analysis core of the QR-Generator-Advanced
repository: a shallow embedding, in Lean 4, of the geometry engine
(`functional_mask.py`, `core/functional_areas.py`), the placement sequencer and
codeword partition lookup (`render.py`, `core/renderer.py`), the mask penalty
evaluator (`penalties.py`, `core/penalties.py`) and the mask selection loops
(`qr_core.py`, `core/qr_generator.py`), together with theorems settling the
frozen claims about those components.

Machine-arithmetic note.  The Python source computes alignment centers and the
N4 dark-ratio penalty with IEEE-754 doubles.  The embedding uses exact integer
arithmetic; the divisors involved are at most 7 (alignment) resp. the module
count (N4), so every intermediate rational value is either exact or at least
1/10 resp. 5/31329 away from the nearest rounding boundary, far above any
accumulated double rounding error; ties (which arise only for versions > 41)
are resolved half-to-even exactly as Python's `round`.  Hence the integer
definitions below agree with the floating-point source on every input used in
the theorems.
-/

namespace QRSpec

/-- Round-to-nearest of the rational `a / b` (for `b > 0`), ties to even --
the semantics of Python's `round` applied to the exact value. -/
def round_rat (a b : Nat) : Nat :=
  let q := a / b
  let r := a % b
  if 2 * r < b then q
  else if b < 2 * r then q + 1
  else if q % 2 = 0 then q else q + 1

/-- Embedding of `compute_alignment_centers` (identical in
`functional_mask.py` and `core/functional_areas.py`):
version 1 has no alignment patterns; otherwise `num = version // 7 + 2`
centers are linearly interpolated between `first = 6` and
`last = size - 7` and rounded to the nearest integer.  The Python code
computes `int(round(first + i * step))` with `step = (last - first) / (num - 1)`;
here the same value is obtained as `round((first * (num-1) + i * (last - first)) / (num-1))`
in exact arithmetic. -/
def compute_alignment_centers (version : Nat) : List Nat :=
  if version = 1 then []
  else
    let size := 21 + (version - 1) * 4
    let num := version / 7 + 2
    let first := 6
    let last := size - 7
    if num = 2 then [first, last]
    else (List.range num).map (fun i => round_rat (first * (num - 1) + i * (last - first)) (num - 1))

/-- Embedding of the full ECC block table `_ECC_TABLE` of `core/renderer.py`:
`(version, eccLevel) -> (g1_blocks, ecc_per_block_g1, g2_blocks, ecc_per_block_g2)`,
as an association list in the dictionary's literal order. -/
def _ECC_TABLE : List ((Nat × String) × (Nat × Nat × Nat × Nat)) := [
  ((1, "L"), (1, 7, 0, 0)), ((2, "L"), (1, 10, 1, 10)), ((3, "L"), (1, 15, 1, 15)), ((4, "L"), (1, 20, 1, 20)),
  ((5, "L"), (1, 26, 1, 26)), ((6, "L"), (2, 18, 2, 18)), ((7, "L"), (2, 20, 2, 20)), ((8, "L"), (2, 24, 2, 24)),
  ((9, "L"), (2, 30, 2, 30)), ((10, "L"), (2, 18, 4, 18)), ((11, "L"), (4, 20, 2, 20)), ((12, "L"), (4, 24, 2, 24)),
  ((13, "L"), (4, 26, 2, 26)), ((14, "L"), (4, 30, 2, 30)), ((15, "L"), (6, 22, 2, 22)), ((16, "L"), (6, 24, 2, 24)),
  ((17, "L"), (6, 28, 2, 28)), ((18, "L"), (6, 30, 2, 30)), ((19, "L"), (6, 28, 4, 28)), ((20, "L"), (6, 28, 4, 28)),
  ((21, "L"), (6, 28, 4, 28)), ((22, "L"), (6, 28, 4, 28)), ((23, "L"), (6, 28, 4, 28)), ((24, "L"), (6, 28, 4, 28)),
  ((25, "L"), (6, 28, 4, 28)), ((26, "L"), (6, 28, 4, 28)), ((27, "L"), (6, 28, 4, 28)), ((28, "L"), (6, 28, 4, 28)),
  ((29, "L"), (6, 28, 4, 28)), ((30, "L"), (6, 28, 4, 28)), ((31, "L"), (6, 28, 4, 28)), ((32, "L"), (6, 28, 4, 28)),
  ((33, "L"), (6, 28, 4, 28)), ((34, "L"), (6, 28, 4, 28)), ((35, "L"), (6, 28, 4, 28)), ((36, "L"), (6, 28, 4, 28)),
  ((37, "L"), (6, 28, 4, 28)), ((38, "L"), (6, 28, 4, 28)), ((39, "L"), (6, 28, 4, 28)), ((40, "L"), (6, 28, 4, 28)),
  ((1, "M"), (1, 10, 0, 0)), ((2, "M"), (1, 16, 1, 16)), ((3, "M"), (1, 26, 1, 26)), ((4, "M"), (2, 18, 2, 18)),
  ((5, "M"), (2, 24, 2, 24)), ((6, "M"), (4, 16, 4, 16)), ((7, "M"), (2, 18, 4, 18)), ((8, "M"), (4, 22, 2, 22)),
  ((9, "M"), (4, 20, 4, 20)), ((10, "M"), (2, 24, 6, 24)), ((11, "M"), (4, 28, 2, 28)), ((12, "M"), (4, 26, 4, 26)),
  ((13, "M"), (4, 24, 4, 24)), ((14, "M"), (4, 20, 4, 20)), ((15, "M"), (6, 24, 2, 24)), ((16, "M"), (6, 28, 2, 28)),
  ((17, "M"), (6, 24, 4, 24)), ((18, "M"), (6, 28, 4, 28)), ((19, "M"), (6, 26, 4, 26)), ((20, "M"), (6, 30, 4, 30)),
  ((21, "M"), (6, 28, 4, 28)), ((22, "M"), (6, 30, 4, 30)), ((23, "M"), (6, 30, 4, 30)), ((24, "M"), (6, 30, 4, 30)),
  ((25, "M"), (6, 30, 4, 30)), ((26, "M"), (6, 30, 4, 30)), ((27, "M"), (6, 30, 4, 30)), ((28, "M"), (6, 30, 4, 30)),
  ((29, "M"), (6, 30, 4, 30)), ((30, "M"), (6, 30, 4, 30)), ((31, "M"), (6, 30, 4, 30)), ((32, "M"), (6, 30, 4, 30)),
  ((33, "M"), (6, 30, 4, 30)), ((34, "M"), (6, 30, 4, 30)), ((35, "M"), (6, 30, 4, 30)), ((36, "M"), (6, 30, 4, 30)),
  ((37, "M"), (6, 30, 4, 30)), ((38, "M"), (6, 30, 4, 30)), ((39, "M"), (6, 30, 4, 30)), ((40, "M"), (6, 30, 4, 30)),
  ((1, "Q"), (1, 13, 0, 0)), ((2, "Q"), (1, 22, 1, 22)), ((3, "Q"), (2, 18, 2, 18)), ((4, "Q"), (2, 26, 2, 26)),
  ((5, "Q"), (2, 18, 2, 18)), ((6, "Q"), (4, 24, 4, 24)), ((7, "Q"), (4, 18, 2, 18)), ((8, "Q"), (4, 22, 2, 22)),
  ((9, "Q"), (4, 20, 2, 20)), ((10, "Q"), (4, 24, 2, 24)), ((11, "Q"), (4, 28, 2, 28)), ((12, "Q"), (4, 26, 2, 26)),
  ((13, "Q"), (4, 24, 2, 24)), ((14, "Q"), (4, 20, 2, 20)), ((15, "Q"), (6, 24, 2, 24)), ((16, "Q"), (6, 28, 2, 28)),
  ((17, "Q"), (6, 24, 2, 24)), ((18, "Q"), (6, 28, 2, 28)), ((19, "Q"), (6, 26, 2, 26)), ((20, "Q"), (6, 30, 2, 30)),
  ((21, "Q"), (6, 28, 2, 28)), ((22, "Q"), (6, 30, 2, 30)), ((23, "Q"), (6, 30, 2, 30)), ((24, "Q"), (6, 30, 2, 30)),
  ((25, "Q"), (6, 30, 2, 30)), ((26, "Q"), (6, 30, 2, 30)), ((27, "Q"), (6, 30, 2, 30)), ((28, "Q"), (6, 30, 2, 30)),
  ((29, "Q"), (6, 30, 2, 30)), ((30, "Q"), (6, 30, 2, 30)), ((31, "Q"), (6, 30, 2, 30)), ((32, "Q"), (6, 30, 2, 30)),
  ((33, "Q"), (6, 30, 2, 30)), ((34, "Q"), (6, 30, 2, 30)), ((35, "Q"), (6, 30, 2, 30)), ((36, "Q"), (6, 30, 2, 30)),
  ((37, "Q"), (6, 30, 2, 30)), ((38, "Q"), (6, 30, 2, 30)), ((39, "Q"), (6, 30, 2, 30)), ((40, "Q"), (6, 30, 2, 30)),
  ((1, "H"), (1, 17, 0, 0)), ((2, "H"), (1, 28, 1, 28)), ((3, "H"), (2, 22, 2, 22)), ((4, "H"), (4, 16, 4, 16)),
  ((5, "H"), (4, 18, 4, 18)), ((6, "H"), (4, 24, 4, 24)), ((7, "H"), (4, 18, 4, 18)), ((8, "H"), (4, 22, 4, 22)),
  ((9, "H"), (4, 20, 4, 20)), ((10, "H"), (4, 24, 4, 24)), ((11, "H"), (4, 28, 4, 28)), ((12, "H"), (4, 26, 4, 26)),
  ((13, "H"), (4, 24, 4, 24)), ((14, "H"), (4, 20, 4, 20)), ((15, "H"), (6, 24, 4, 24)), ((16, "H"), (6, 28, 4, 28)),
  ((17, "H"), (6, 24, 4, 24)), ((18, "H"), (6, 28, 4, 28)), ((19, "H"), (6, 26, 4, 26)), ((20, "H"), (6, 30, 4, 30)),
  ((21, "H"), (6, 28, 4, 28)), ((22, "H"), (6, 30, 4, 30)), ((23, "H"), (6, 30, 4, 30)), ((24, "H"), (6, 30, 4, 30)),
  ((25, "H"), (6, 30, 4, 30)), ((26, "H"), (6, 30, 4, 30)), ((27, "H"), (6, 30, 4, 30)), ((28, "H"), (6, 30, 4, 30)),
  ((29, "H"), (6, 30, 4, 30)), ((30, "H"), (6, 30, 4, 30)), ((31, "H"), (6, 30, 4, 30)), ((32, "H"), (6, 30, 4, 30)),
  ((33, "H"), (6, 30, 4, 30)), ((34, "H"), (6, 30, 4, 30)), ((35, "H"), (6, 30, 4, 30)), ((36, "H"), (6, 30, 4, 30)),
  ((37, "H"), (6, 30, 4, 30)), ((38, "H"), (6, 30, 4, 30)), ((39, "H"), (6, 30, 4, 30)), ((40, "H"), (6, 30, 4, 30))]

/-- Normalisation of the ECC-level argument performed by
`_total_ecc_codewords`: Python's `(ecc_level or 'M').upper()`.  An empty
(falsy) string becomes `"M"`; lowercase level letters are uppercased.  For any
other string Python's `.upper()` may differ from the identity used here, but
the lookup below then fails for both, so the embedded function's value agrees
with the source on every input. -/
def normalize_ecc (ecc_level : String) : String :=
  if ecc_level = "" then "M"
  else if ecc_level = "l" then "L"
  else if ecc_level = "m" then "M"
  else if ecc_level = "q" then "Q"
  else if ecc_level = "h" then "H"
  else ecc_level

/-- Embedding of `_total_ecc_codewords` of `core/renderer.py`: looks up
`(version, normalised level)` in `_ECC_TABLE` and returns
`g1 * ecc1 + g2 * ecc2`, or `0` when the pair is absent. -/
def _total_ecc_codewords (version : Nat) (ecc_level : String) : Nat :=
  match _ECC_TABLE.lookup (version, normalize_ecc ecc_level) with
  | some (g1, ecc1, g2, ecc2) => g1 * ecc1 + g2 * ecc2
  | none => 0

/-- Embedding of the compact level-M table `_ECC_TABLE_M` of `render.py`
(`version -> (g1_blocks, ecc_per_block_g1, g2_blocks, ecc_per_block_g2)`,
versions 1..10 only). -/
def _ECC_TABLE_M : List (Nat × (Nat × Nat × Nat × Nat)) := [
  (1, (1, 10, 0, 0)), (2, (1, 16, 1, 16)), (3, (1, 26, 1, 26)), (4, (2, 18, 2, 18)),
  (5, (2, 24, 2, 24)), (6, (4, 16, 4, 16)), (7, (2, 18, 4, 18)), (8, (4, 22, 2, 22)),
  (9, (4, 20, 4, 20)), (10, (2, 24, 6, 24))]

/-- Embedding of `_total_ecc_codewords` of `render.py`: recognised only for
level `'M'` and versions present in `_ECC_TABLE_M`; otherwise `0`. -/
def total_ecc_codewords_render (version : Nat) (ecc_level : String) : Nat :=
  let ecc := normalize_ecc ecc_level
  if ecc = "M" then
    match _ECC_TABLE_M.lookup version with
    | some (g1, ecc1, g2, ecc2) => g1 * ecc1 + g2 * ecc2
    | none => 0
  else 0

/-- The three finder-pattern corners used by `build_function_mask` and the
renderers: top-left, top-right, bottom-left. -/
def finder_positions (size : Nat) : List (Nat × Nat) :=
  [(0, 0), (0, size - 7), (size - 7, 0)]

/-- Embedding of the separator half of `build_function_mask` (identical in
`functional_mask.py` and `core/functional_areas.py`): the value of
`sep_mask[r][c]` after the finder pass.  A cell is a separator iff, for some
finder corner `(r0, c0)`, it lies in the 9x9 bounding box `r0-1..r0+7` x
`c0-1..c0+7` (clipped to the grid: Python's `0 <= r < size and 0 <= c < size`
guard) but outside the 7x7 core (`r < r0 or r > r0+6 or c < c0 or c > c0+6`).
Assignments only ever set `True`, so the final array is this disjunction.
(The Python function raises `IndexError` for `size <= 8` in a later pass, so
its result only exists for `size >= 9`; the definition below is its value
there.) -/
def sep_mask (size r c : Nat) : Bool :=
  (finder_positions size).any fun p =>
    decide (p.1 - 1 ≤ r) && decide (r ≤ p.1 + 7) &&
    decide (p.2 - 1 ≤ c) && decide (c ≤ p.2 + 7) &&
    decide (r < size) && decide (c < size) &&
    (decide (r < p.1) || decide (p.1 + 6 < r) || decide (c < p.2) || decide (p.2 + 6 < c))

/-- Embedding of the functional half of `build_function_mask`: the value of
`func_mask[r][c]` after the five passes (finder 7x7 blocks, timing row/column
6, alignment 5x5 blocks skipping finder corners, format info around row/column
8, version info blocks for version >= 7).  All passes only set cells to
`True`, so the final array is the disjunction of the five region predicates,
each with the same bounds guards as the source.  (As with `sep_mask`, the
Python function only returns for `size >= 9`, and for `version >= 7` its
unguarded negative indices additionally require `size >= 11`; the definition
below is its value on that domain.) -/
def func_mask (size version r c : Nat) : Bool :=
  ((finder_positions size).any fun p =>
      decide (p.1 ≤ r) && decide (r ≤ p.1 + 6) && decide (p.2 ≤ c) && decide (c ≤ p.2 + 6) &&
      decide (r < size) && decide (c < size)) ||
  (decide (r = 6) && decide (c < size)) || (decide (c = 6) && decide (r < size)) ||
  ((compute_alignment_centers version).any fun cy =>
    (compute_alignment_centers version).any fun cx =>
      !((decide (cy ≤ 6) && decide (cx ≤ 6)) ||
        (decide (cy ≤ 6) && decide (size - 7 ≤ cx)) ||
        (decide (size - 7 ≤ cy) && decide (cx ≤ 6))) &&
      decide (cy - 2 ≤ r) && decide (r ≤ cy + 2) &&
      decide (cx - 2 ≤ c) && decide (c ≤ cx + 2) &&
      decide (r < size) && decide (c < size)) ||
  ((List.range 9).any fun i =>
    decide (i < size) &&
    ((decide (r = 8) && decide (c = i)) ||
     (decide (r = i) && decide (c = 8)) ||
     (decide (r = 8) && decide (c = size - 1 - i)))) ||
  (decide (7 ≤ version) &&
    ((decide (r < 6) && decide (size - 11 ≤ c) && decide (c ≤ size - 9)) ||
     (decide (size - 11 ≤ r) && decide (r ≤ size - 9) && decide (c < 6))))

/-- Embedding of `build_function_mask`: the returned pair
`(func_mask, sep_mask)`, with each matrix represented by its membership
function. -/
def build_function_mask (size version : Nat) : (Nat → Nat → Bool) × (Nat → Nat → Bool) :=
  (func_mask size version, sep_mask size)

/-- Modelled from the spec: "separator mask marks the 1-module frame around
each finder" -- the cell lies inside the grid, within one module of a finder's
7x7 block (its 9x9 bounding box) but not in the block itself. -/
def InSeparatorFrame (size r c : Nat) : Prop :=
  r < size ∧ c < size ∧ ∃ p ∈ finder_positions size,
    (p.1 - 1 ≤ r ∧ r ≤ p.1 + 7 ∧ p.2 - 1 ≤ c ∧ c ≤ p.2 + 7) ∧
    ¬(p.1 ≤ r ∧ r ≤ p.1 + 6 ∧ p.2 ≤ c ∧ c ≤ p.2 + 6)

/-- Grid cell access `rows[r][c]` (grids are row-major lists of boolean rows;
out-of-range reads default to `false`; the theorems about grids carry a
squareness hypothesis under which all reads performed by the source are
in range, so the default is never consulted there). -/
def cell (rows : List (List Bool)) (r c : Nat) : Bool :=
  (rows.getD r []).getD c false

/-- The grid is square: every row has as many entries as there are rows
(Python indexes `rows[r][c]` for all `r, c < len(rows)` and would raise
`IndexError` otherwise). -/
def Square (rows : List (List Bool)) : Prop :=
  ∀ row ∈ rows, row.length = rows.length

instance (rows : List (List Bool)) : Decidable (Square rows) := by
  unfold Square; infer_instance

/-- One line (row `r`) of the grid as scanned by the penalty rules:
`rows[r][c]` for `c = 0 .. n-1` where `n = len(rows)`. -/
def rowLine (rows : List (List Bool)) (r : Nat) : List Bool :=
  (List.range rows.length).map (fun c => cell rows r c)

/-- One column (`c`) of the grid as scanned by the penalty rules. -/
def colLine (rows : List (List Bool)) (c : Nat) : List Bool :=
  (List.range rows.length).map (fun r => cell rows r c)

/-- The run scanner of `penalty_N1` on one line: `rest` is the unread tail,
`prev` the value of the previous module, `run` the length of the current run;
a maximal run of length `>= 5` scores `3 + (run - 5)`, including the final
run. -/
def n1Scan : List Bool → Bool → Nat → Nat
  | [], _, run => if 5 ≤ run then 3 + (run - 5) else 0
  | v :: rest, prev, run =>
    if v == prev then n1Scan rest v (run + 1)
    else (if 5 ≤ run then 3 + (run - 5) else 0) + n1Scan rest v 1

/-- Score of one line under rule N1 (Python starts with `run = 1` on the first
module; an empty line is never scanned since the row loop is empty then). -/
def n1Line (l : List Bool) : Nat :=
  match l with
  | [] => 0
  | v :: rest => n1Scan rest v 1

/-- Embedding of `penalty_N1` (identical in `penalties.py` and
`core/penalties.py`): run penalties over every row and every column. -/
def penalty_N1 (rows : List (List Bool)) : Nat :=
  ((List.range rows.length).map (fun r => n1Line (rowLine rows r))).sum +
  ((List.range rows.length).map (fun c => n1Line (colLine rows c))).sum

/-- Embedding of `penalty_N2`: 3 points for every 2x2 window whose four
modules agree (windows overlap; top-left corners range over
`0 .. n-2` in both coordinates). -/
def penalty_N2 (rows : List (List Bool)) : Nat :=
  let n := rows.length
  3 * ((List.range (n - 1)).map (fun r =>
        ((List.range (n - 1)).filter (fun c =>
          cell rows r (c+1) == cell rows r c &&
          cell rows (r+1) c == cell rows r c &&
          cell rows (r+1) (c+1) == cell rows r c)).length)).sum

/-- Embedding of `_pattern_1_1_3_1_1` restricted to its use in `penalty_N3`:
the number of indices `i` at which the 7-module finder-like pattern occurs
with at least 4 light modules directly before or directly after it.
(`n - 7 + 1` in natural subtraction gives `1` rather than Python's empty range
for `n < 6`, but the window comparison fails there, so the count agrees.) -/
def pattern11311Count (seq : List Bool) : Nat :=
  let n := seq.length
  ((List.range (n - 7 + 1)).filter (fun i =>
    decide ((seq.drop i).take 7 = [true, false, true, true, true, false, true]) &&
    ((decide (4 ≤ i) && ((seq.drop (i - 4)).take 4).all (fun v => v == false)) ||
     (decide (i + 11 ≤ n) && ((seq.drop (i + 7)).take 4).all (fun v => v == false))))).length

/-- Embedding of `penalty_N3`: 40 points per finder-like pattern occurrence,
over every row and every column. -/
def penalty_N3 (rows : List (List Bool)) : Nat :=
  ((List.range rows.length).map (fun r => 40 * pattern11311Count (rowLine rows r))).sum +
  ((List.range rows.length).map (fun c => 40 * pattern11311Count (colLine rows c))).sum

/-- The number of dark modules counted by `penalty_N4`
(`sum(1 for r in range(n) for c in range(n) if rows[r][c])`). -/
def darkCount (rows : List (List Bool)) : Nat :=
  ((List.range rows.length).map (fun r =>
    ((List.range rows.length).filter (fun c => cell rows r c)).length)).sum

/-- Embedding of `penalty_N4`: `10 * floor(|100*dark/total - 50| / 5)`.
Python computes `dark * 100.0 / total` first and raises `ZeroDivisionError`
when `total = 0`, modelled by `none`; otherwise the float computation agrees
with the exact value `|100*dark - 50*total| / (5*total)` rounded down (see the
machine-arithmetic note at the top of the file). -/
def penalty_N4 (rows : List (List Bool)) : Option Nat :=
  let n := rows.length
  let total := n * n
  if total = 0 then none
  else some (10 * ((100 * (darkCount rows : Int) - 50 * total).natAbs / (5 * total)))

/-- Embedding of `compute_mask_penalty`: the sum N1 + N2 + N3 + N4 (the
boolean re-coercion `[[bool(v) for v in row]]` is the identity on boolean
grids).  `none` models the `ZeroDivisionError` raised inside `penalty_N4` on
an empty grid. -/
def compute_mask_penalty (rows : List (List Bool)) : Option Nat :=
  (penalty_N4 rows).map (fun p4 =>
    penalty_N1 rows + penalty_N2 rows + penalty_N3 rows + p4)

/-- The uniformly light n x n grid. -/
def lightGrid (n : Nat) : List (List Bool) :=
  List.replicate n (List.replicate n false)

namespace qr_core

/-- The selection loop of `evaluate_all_masks` in `qr_core.py`: `ms` is the
list of mask ids still to process, `bm`/`bs` the current best mask and score
(`None` before the first candidate), `sc` the scores dictionary in insertion
order.  A candidate replaces the best exactly when
`best_score is None or sc < best_score`. -/
def eamLoop (score : Nat → Nat) :
    List Nat → Option Nat → Option Nat → List (Nat × Nat) →
    Option Nat × Option Nat × List (Nat × Nat)
  | [], bm, bs, sc => (bm, bs, sc)
  | m :: ms, bm, bs, sc =>
    let s := score m
    let sc' := sc ++ [(m, s)]
    match bs with
    | none => eamLoop score ms (some m) (some s) sc'
    | some b =>
      if s < b then eamLoop score ms (some m) (some s) sc'
      else eamLoop score ms bm bs sc'

/-- Embedding of `evaluate_all_masks` of `qr_core.py`.  The externally
generated symbols and their penalties (`compute_mask_penalty(list(sym.matrix))`
for masks 0..7) are abstracted into the score assignment `score`; the function
returns `(best_mask, best_score, scores)`. -/
def evaluate_all_masks (score : Nat → Nat) :
    Option Nat × Option Nat × List (Nat × Nat) :=
  eamLoop score (List.range 8) none none []

end qr_core

namespace qr_generator

/-- The selection loop of `evaluate_all_masks` in `core/qr_generator.py`:
like `qr_core.eamLoop`, but each candidate's generation/evaluation may fail
(`result m = none` models an exception inside the `try` block), in which case
the `except` handler records the sentinel `999999` in the scores dictionary
and leaves the best untouched. -/
def eamLoop (result : Nat → Option Nat) :
    List Nat → Option Nat → Option Nat → List (Nat × Nat) →
    Option Nat × Option Nat × List (Nat × Nat)
  | [], bm, bs, sc => (bm, bs, sc)
  | m :: ms, bm, bs, sc =>
    match result m with
    | none => eamLoop result ms bm bs (sc ++ [(m, 999999)])
    | some s =>
      let sc' := sc ++ [(m, s)]
      match bs with
      | none => eamLoop result ms (some m) (some s) sc'
      | some b =>
        if s < b then eamLoop result ms (some m) (some s) sc'
        else eamLoop result ms bm bs sc'

/-- Embedding of `evaluate_all_masks` of `core/qr_generator.py`; `result m`
is the outcome of generating and scoring the candidate with mask `m`
(`none` = the `try` block raised). -/
def evaluate_all_masks (result : Nat → Option Nat) :
    Option Nat × Option Nat × List (Nat × Nat) :=
  eamLoop result (List.range 8) none none []

end qr_generator

/-- The row visited at step `i` of a column pair:
`r = (size - 1 - i) if upward else i`. -/
def rIdx (size : Nat) (upward : Bool) (i : Nat) : Nat :=
  if upward then size - 1 - i else i

/-- One column pair of the placement loop of `_data_modules_coords`
(identical in `render.py` and `core/renderer.py`): for each `i < size` the row
is `size-1-i` (upward) or `i` (downward), and the columns `col` then `col-1`
are visited, emitting the coordinate when it is inside the grid and not
functional. -/
def pairBlock (size : Nat) (mask : Nat → Nat → Bool) (col : Nat) (upward : Bool) :
    List (Nat × Nat) :=
  (List.range size).flatMap fun i =>
    ([col, col - 1].filter (fun c =>
      decide (rIdx size upward i < size) && decide (c < size) && !mask (rIdx size upward i) c)).map
      (fun c => (rIdx size upward i, c))

/-- The `while col > 0` loop of `_data_modules_coords`: when `col = 6` the
counter first steps past the timing column, then a column pair is emitted and
the counter decreases by 2 with the scan direction flipped. -/
def dmLoop (size : Nat) (mask : Nat → Nat → Bool) (col : Nat) (upward : Bool) :
    List (Nat × Nat) :=
  if col = 0 then []
  else if col = 6 then pairBlock size mask 5 upward ++ dmLoop size mask 3 (!upward)
  else pairBlock size mask col upward ++ dmLoop size mask (col - 2) (!upward)
termination_by col
decreasing_by
· omega
· omega

/-- Embedding of `_data_modules_coords`: the zig-zag enumeration starts at
column `size - 1`, scanning upward. -/
def _data_modules_coords (size : Nat) (mask : Nat → Nat → Bool) : List (Nat × Nat) :=
  dmLoop size mask (size - 1) true

/-- The number of `true` cells of a `size` x `size` mask (the quantity
`count_true(mask)` of the claim), counted column by column. -/
def count_true (size : Nat) (mask : Nat → Nat → Bool) : Nat :=
  ((List.range size).map (fun c =>
    ((List.range size).filter (fun r => mask r c)).length)).sum

/-- The columns visited by `dmLoop` starting at `col`, in order. -/
def covCols (col : Nat) : List Nat :=
  if col = 0 then []
  else if col = 6 then 5 :: 4 :: covCols 3
  else col :: (col - 1) :: covCols (col - 2)
termination_by col
decreasing_by
· omega
· omega

/-- All cells the loop can emit in one fixed column `c`: the non-functional
in-bounds cells of that column, top to bottom. -/
def colCells (size : Nat) (mask : Nat → Nat → Bool) (c : Nat) : List (Nat × Nat) :=
  ((List.range size).filter (fun r =>
    decide (r < size) && decide (c < size) && !mask r c)).map (fun r => (r, c))

/-- The number of non-functional cells of column `c` (rows `0 .. size-1`). -/
def nonMasked (size : Nat) (mask : Nat → Nat → Bool) (c : Nat) : Nat :=
  ((List.range size).filter (fun r => !mask r c)).length

/-! ## Helper lemmas -/

lemma round_rat_mul (k b : Nat) (hb : 0 < b) : round_rat (k * b) b = k := by
  unfold round_rat
  simp only [Nat.mul_div_cancel _ hb, Nat.mul_mod_left]
  simp [hb]

lemma compute_alignment_centers_big (v : Nat) (hv : 7 * 5 ≤ v) :
    compute_alignment_centers v =
      (List.range (v / 7 + 2)).map (fun i =>
        round_rat (6 * (v / 7 + 1) + i * (21 + (v - 1) * 4 - 7 - 6)) (v / 7 + 1)) := by
  have h1 : v ≠ 1 := by omega
  have h5 : 5 ≤ v / 7 := Nat.le_div_iff_mul_le (by norm_num) |>.mpr (by omega)
  have hnum : ¬(v / 7 + 2 = 2) := by omega
  unfold compute_alignment_centers
  simp only [h1, if_false, hnum]
  rfl

/-! ## C2: alignment-center golden values -/

/-- C2, counterexample: at the spec's third golden point the code does not
return the value the claim asserts -- `compute_alignment_centers 32` is
`[6, 32, 59, 85, 112, 138]`, not `[6, 34, 62, 90, 118, 146]` (the latter is in
fact the code's output for version 34, and 146 does not even fit the version-32
grid of size 145). -/
theorem C2_alignment_golden_counterexample :
    compute_alignment_centers 32 ≠ [6, 34, 62, 90, 118, 146] := by
  decide

/-- C2, amended: the first two golden points hold as claimed, and at version
32 the code returns `[6, 32, 59, 85, 112, 138]` (which deviates both from the
claim and from the standard's published row `[6, 34, 60, 86, 112, 138]` --
the linear-interpolation algorithm does not reproduce the table there). -/
theorem C2_alignment_golden_amended :
    compute_alignment_centers 1 = [] ∧
    compute_alignment_centers 7 = [6, 22, 38] ∧
    compute_alignment_centers 32 = [6, 32, 59, 85, 112, 138] := by
  refine ⟨by decide, by decide, by decide⟩

/-! ## C3: shape of the alignment-center list for versions 1..40 -/

/-- C3: for every version in 1..40, `compute_alignment_centers` returns the
empty list at version 1, and for versions 2..40 a list of exactly
`version / 7 + 2` entries whose first entry is 6 and whose last entry is
`size - 7` with `size = 21 + 4 * (version - 1)`. -/
theorem C3_alignment_shape :
    compute_alignment_centers 1 = [] ∧
    ∀ v : Nat, v < 41 → 2 ≤ v →
      (compute_alignment_centers v).length = v / 7 + 2 ∧
      (compute_alignment_centers v).head? = some 6 ∧
      (compute_alignment_centers v).getLast? = some (21 + (v - 1) * 4 - 7) := by
  exact ⟨by decide, by decide⟩

/-- C3, witness at version 7. -/
theorem C3_alignment_shape_witness :
    7 < 41 ∧ 2 ≤ 7 ∧
      ((compute_alignment_centers 7).length = 7 / 7 + 2 ∧
       (compute_alignment_centers 7).head? = some 6 ∧
       (compute_alignment_centers 7).getLast? = some (21 + (7 - 1) * 4 - 7)) :=
  ⟨by decide, by decide, C3_alignment_shape.2 7 (by decide) (by decide)⟩

/-! ## C7: absence of geometry validation -/

/-- C7, counterexample: versions outside 1..40 are not rejected.
`compute_alignment_centers 41` computes a normal 7-entry list instead of
failing, and `build_function_mask` happily computes a functional mask for a
size-21 grid declared to be version 50 (marking version-info cells in it). -/
theorem C7_no_validation_counterexample :
    compute_alignment_centers 41 = [6, 34, 62, 90, 118, 146, 174] ∧
    (build_function_mask 21 50).1 0 10 = true := by
  refine ⟨by decide, by decide⟩

/-- C7, amended: no core operation validates geometry; in particular, for
every version above 40 `compute_alignment_centers` still returns a
normally-structured list (`version / 7 + 2` entries starting with 6) rather
than failing at the API boundary. -/
theorem C7_no_validation_amended (v : Nat) (hv : 41 ≤ v) :
    (compute_alignment_centers v).length = v / 7 + 2 ∧
    (compute_alignment_centers v).head? = some 6 := by
  rw [compute_alignment_centers_big v (by omega)]
  have hb : 0 < v / 7 + 1 := by omega
  constructor
  · rw [List.length_map, List.length_range]
  · have h2 : v / 7 + 2 = (v / 7 + 1) + 1 := rfl
    rw [h2, List.range_succ_eq_map]
    simp only [List.map_cons, List.head?_cons, Option.some.injEq]
    rw [Nat.zero_mul, Nat.add_zero]
    exact round_rat_mul 6 _ hb

/-- C7, witness at version 41. -/
theorem C7_no_validation_witness :
    41 ≤ 41 ∧
      ((compute_alignment_centers 41).length = 41 / 7 + 2 ∧
       (compute_alignment_centers 41).head? = some 6) :=
  ⟨by decide, C7_no_validation_amended 41 (by decide)⟩

/-! ## C4: ECC codeword lookup is total with a zero fallback -/

/-- C4: for every version and ECC level, the codeword lookup never fails:
when the (normalised) pair is present in the ECC block table the result is
`g1_blocks * ecc_per_block_g1 + g2_blocks * ecc_per_block_g2`, and when it is
absent the result is `0` (the intentional "everything is data" fallback).
This holds both for the full table of `core/renderer.py` and for the
level-M-only table of `render.py`. -/
theorem C4_ecc_lookup_fallback (version : Nat) (ecc_level : String) :
    (∀ g1 e1 g2 e2,
        _ECC_TABLE.lookup (version, normalize_ecc ecc_level) = some (g1, e1, g2, e2) →
        _total_ecc_codewords version ecc_level = g1 * e1 + g2 * e2) ∧
    (_ECC_TABLE.lookup (version, normalize_ecc ecc_level) = none →
        _total_ecc_codewords version ecc_level = 0) ∧
    (∀ g1 e1 g2 e2,
        normalize_ecc ecc_level = "M" → _ECC_TABLE_M.lookup version = some (g1, e1, g2, e2) →
        total_ecc_codewords_render version ecc_level = g1 * e1 + g2 * e2) ∧
    (normalize_ecc ecc_level ≠ "M" ∨ _ECC_TABLE_M.lookup version = none →
        total_ecc_codewords_render version ecc_level = 0) := by
  refine ⟨?_, ?_, ?_, ?_⟩
  · intro g1 e1 g2 e2 h
    simp [_total_ecc_codewords, h]
  · intro h
    simp [_total_ecc_codewords, h]
  · intro g1 e1 g2 e2 hM h
    simp [total_ecc_codewords_render, hM, h]
  · intro h
    rcases h with h | h
    · simp [total_ecc_codewords_render, h]
    · by_cases hM : normalize_ecc ecc_level = "M"
      · simp [total_ecc_codewords_render, hM, h]
      · simp [total_ecc_codewords_render, hM]

/-- C4, witness: version 6 at level `"m"` (normalised to `"M"`) is present in
both tables with blocks `(4, 16, 4, 16)`, so both lookups return 128. -/
theorem C4_ecc_lookup_fallback_witness :
    _ECC_TABLE.lookup (6, normalize_ecc "m") = some (4, 16, 4, 16) ∧
    _total_ecc_codewords 6 "m" = 4 * 16 + 4 * 16 :=
  ⟨by decide, (C4_ecc_lookup_fallback 6 "m").1 4 16 4 16 (by decide)⟩

/-! ## C9: separator mask vs functional mask -/

/-- C9, counterexample: the separator mask is not disjoint from the
functional mask.  In the version-1, size-21 grid, cell (6, 7) lies in the
1-module frame of the top-left finder (so the separator mask marks it) and in
timing row 6 (so the functional mask marks it too). -/
theorem C9_separator_counterexample :
    sep_mask 21 6 7 = true ∧ func_mask 21 1 6 7 = true := by
  refine ⟨by decide, by decide⟩

/-- C9, amended: every cell marked in the separator mask is a cell of the
1-module frame around one of the three finders (within the finder's 9x9
bounding box, outside its 7x7 block, inside the grid) -- and conversely; such
a cell may simultaneously be functional (the timing row/column crosses the
frame), so separator does not imply not-functional.  The hypothesis
`9 ≤ size` delimits the domain on which the Python function returns at all
(below it, an unguarded write raises `IndexError`). -/
theorem C9_separator_frame (size r c : Nat) (hsize : 9 ≤ size) :
    sep_mask size r c = true ↔ InSeparatorFrame size r c := by
  simp only [sep_mask, InSeparatorFrame, finder_positions, List.any_eq_true,
    List.mem_cons, List.not_mem_nil, or_false, Bool.and_eq_true, Bool.or_eq_true,
    decide_eq_true_eq]
  constructor
  · rintro ⟨p, hp, h⟩
    rcases hp with rfl | rfl | rfl <;> simp only at h
    · exact ⟨by omega, by omega, (0, 0), by simp, ⟨by omega, by omega, by omega, by omega⟩, by omega⟩
    · exact ⟨by omega, by omega, (0, size - 7), by simp, ⟨by omega, by omega, by omega, by omega⟩,
        by omega⟩
    · exact ⟨by omega, by omega, (size - 7, 0), by simp, ⟨by omega, by omega, by omega, by omega⟩,
        by omega⟩
  · rintro ⟨hr, hc, p, hp, hbox, hcore⟩
    refine ⟨p, hp, ?_⟩
    rcases hp with rfl | rfl | rfl <;>
      · simp only at hbox hcore ⊢
        omega

/-- C9, witness at size 21, cell (7, 0) (a frame cell below the top-left
finder). -/
theorem C9_separator_frame_witness :
    9 ≤ 21 ∧ (sep_mask 21 7 0 = true ↔ InSeparatorFrame 21 7 0) :=
  ⟨by decide, C9_separator_frame 21 7 0 (by decide)⟩

/-! ## C10: totality of compute_mask_penalty on non-empty square grids -/

/-- C10: on square grids, `compute_mask_penalty` succeeds exactly on
non-empty grids -- the division by `total = n * n` inside `penalty_N4` (the
only failure point) is reached with `total = 0` precisely when the grid is the
empty 0x0 grid -- and on non-empty grids the result is the sum of the four
individually non-negative (ℕ-valued) sub-scores. -/
theorem C10_penalty_totality (rows : List (List Bool)) (hsq : Square rows) :
    ((compute_mask_penalty rows).isSome ↔ rows ≠ []) ∧
    (∀ k, compute_mask_penalty rows = some k →
      ∃ k4, penalty_N4 rows = some k4 ∧
        k = penalty_N1 rows + penalty_N2 rows + penalty_N3 rows + k4) := by
  constructor
  · cases rows with
    | nil => simp [compute_mask_penalty, penalty_N4]
    | cons r rs =>
      have h : ¬((r :: rs).length * (r :: rs).length = 0) := by simp
      simp [compute_mask_penalty, penalty_N4, h]
  · intro k hk
    unfold compute_mask_penalty at hk
    cases h4 : penalty_N4 rows with
    | none => rw [h4] at hk; simp at hk
    | some k4 =>
      rw [h4] at hk
      simp at hk
      exact ⟨k4, rfl, hk.symm⟩

/-- C10, witness at the 1x1 dark grid (and the claim's iff also certifies the
empty grid through the same theorem, whose hypothesis `Square []` holds
vacuously). -/
theorem C10_penalty_totality_witness :
    Square [[true]] ∧
      (((compute_mask_penalty [[true]]).isSome ↔ [[true]] ≠ []) ∧
       (∀ k, compute_mask_penalty [[true]] = some k →
         ∃ k4, penalty_N4 [[true]] = some k4 ∧
           k = penalty_N1 [[true]] + penalty_N2 [[true]] + penalty_N3 [[true]] + k4)) :=
  ⟨by decide, C10_penalty_totality [[true]] (by decide)⟩

/-! ## C8: the N4 formula, and the uniformly light 21x21 grid -/

/-- C8: on every non-empty square grid, `penalty_N4` equals
`10 * floor(|100 * darkCount / totalModules - 50| / 5)` (exact rational
arithmetic); in particular on the uniformly light 21x21 grid `penalty_N4`
is 100 and `penalty_N2` is `3 * (20 * 20) = 1200` (every 2x2 window is
uniform, overlapping windows counted independently). -/
theorem C8_penalty_formulas :
    (∀ rows : List (List Bool), Square rows → 0 < rows.length →
      ∃ k, penalty_N4 rows = some k ∧
        k = 10 * Nat.floor ((|100 * (darkCount rows : ℚ) /
              ((rows.length : ℚ) * (rows.length : ℚ)) - 50|) / 5)) ∧
    penalty_N4 (lightGrid 21) = some 100 ∧ penalty_N2 (lightGrid 21) = 1200 := by
  refine ⟨?_, by decide, by decide⟩
  intro rows _ hn
  have ht : ¬(rows.length * rows.length = 0) := by
    rcases Nat.eq_zero_or_pos rows.length with h | h
    · omega
    · have := Nat.mul_pos h h
      omega
  refine ⟨_, by unfold penalty_N4; rw [if_neg ht], ?_⟩
  set d := darkCount rows with hd
  set t := rows.length * rows.length with htdef
  have ht' : (0 : ℚ) < (t : ℚ) := by
    have : 0 < t := Nat.pos_of_ne_zero ht
    exact_mod_cast this
  have h1 : 100 * (d : ℚ) / ((rows.length : ℚ) * (rows.length : ℚ)) - 50 =
      (((100 * (d : Int) - 50 * (t : Int)) : Int) : ℚ) / (t : ℚ) := by
    have htq : ((rows.length : ℚ) * (rows.length : ℚ)) = (t : ℚ) := by
      rw [htdef]; push_cast; ring
    rw [htq]
    field_simp
    ring
  rw [h1, abs_div, abs_of_pos ht']
  have h2 : |(((100 * (d : Int) - 50 * (t : Int)) : Int) : ℚ)| =
      (((100 * (d : Int) - 50 * (t : Int)).natAbs : Nat) : ℚ) := by
    rw [Int.cast_natAbs]
    push_cast
    ring
  rw [h2, div_div]
  have h3 : (t : ℚ) * 5 = ((t * 5 : Nat) : ℚ) := by push_cast; ring
  rw [h3, Nat.floor_div_nat, Nat.floor_natCast, Nat.mul_comm t 5]

/-- C8, witness at the 1x1 light grid: `penalty_N4 = some 100`
(`ratio = 0`, `10 * floor(50 / 5) = 100`). -/
theorem C8_penalty_formulas_witness :
    Square (lightGrid 1) ∧ 0 < (lightGrid 1).length ∧
      ∃ k, penalty_N4 (lightGrid 1) = some k ∧
        k = 10 * Nat.floor ((|100 * (darkCount (lightGrid 1) : ℚ) /
              (((lightGrid 1).length : ℚ) * ((lightGrid 1).length : ℚ)) - 50|) / 5) :=
  ⟨by decide, by decide, C8_penalty_formulas.1 (lightGrid 1) (by decide) (by decide)⟩

/-! ## C5: evaluate_all_masks selects the minimum, lowest id on ties -/

/-- Invariant of the `qr_core` selection loop over the still-unprocessed ids
`s, s+1, ..., s+n-1`, given a current best `(bm, b)` with `b = score bm` and
`bm < s`: the final best is the running minimum, and an id can only displace
the incumbent with a strictly smaller score. -/
lemma eamLoop_spec (score : Nat → Nat) :
    ∀ (n s bm b : Nat) (acc : List (Nat × Nat)), b = score bm → bm < s →
    ∃ bm' b',
      qr_core.eamLoop score (List.range' s n) (some bm) (some b) acc =
        (some bm', some b', acc ++ (List.range' s n).map (fun m => (m, score m))) ∧
      b' = score bm' ∧ b' ≤ b ∧
      (bm' = bm ∨ (s ≤ bm' ∧ bm' < s + n ∧ b' < b)) ∧
      (∀ m, s ≤ m → m < s + n → b' ≤ score m) ∧
      (∀ m, s ≤ m → m < s + n → m < bm' → b' < score m) := by
  intro n
  induction n with
  | zero =>
    intro s bm b acc hb _
    exact ⟨bm, b, by simp [qr_core.eamLoop], hb, le_refl b, Or.inl rfl,
      fun m h1 h2 => by omega, fun m h1 h2 _ => by omega⟩
  | succ n ih =>
    intro s bm b acc hb hlt
    rw [List.range'_succ]
    by_cases hcmp : score s < b
    · have step :
          qr_core.eamLoop score (s :: List.range' (s + 1) n) (some bm) (some b) acc =
            qr_core.eamLoop score (List.range' (s + 1) n) (some s) (some (score s))
              (acc ++ [(s, score s)]) := by
        simp [qr_core.eamLoop, hcmp]
      obtain ⟨bm', b', hrun, hb', hble, hdisj, hmin, hstrict⟩ :=
        ih (s + 1) s (score s) (acc ++ [(s, score s)]) rfl (by omega)
      refine ⟨bm', b', ?_, hb', by omega, ?_, ?_, ?_⟩
      · rw [step, hrun, List.map_cons, List.append_assoc]
        rfl
      · rcases hdisj with rfl | ⟨h1, h2, h3⟩
        · exact Or.inr ⟨by omega, by omega, by omega⟩
        · exact Or.inr ⟨by omega, by omega, by omega⟩
      · intro m h1 h2
        rcases Nat.eq_or_lt_of_le h1 with rfl | h1'
        · omega
        · exact hmin m (by omega) (by omega)
      · intro m h1 h2 h3
        rcases Nat.eq_or_lt_of_le h1 with rfl | h1'
        · rcases hdisj with rfl | ⟨_, _, h⟩
          · omega
          · omega
        · exact hstrict m (by omega) (by omega) h3
    · have step :
          qr_core.eamLoop score (s :: List.range' (s + 1) n) (some bm) (some b) acc =
            qr_core.eamLoop score (List.range' (s + 1) n) (some bm) (some b)
              (acc ++ [(s, score s)]) := by
        simp [qr_core.eamLoop, hcmp]
      obtain ⟨bm', b', hrun, hb', hble, hdisj, hmin, hstrict⟩ :=
        ih (s + 1) bm b (acc ++ [(s, score s)]) hb (by omega)
      refine ⟨bm', b', ?_, hb', hble, ?_, ?_, ?_⟩
      · rw [step, hrun, List.map_cons, List.append_assoc]
        rfl
      · rcases hdisj with rfl | ⟨h1, h2, h3⟩
        · exact Or.inl rfl
        · exact Or.inr ⟨by omega, by omega, h3⟩
      · intro m h1 h2
        rcases Nat.eq_or_lt_of_le h1 with rfl | h1'
        · omega
        · exact hmin m (by omega) (by omega)
      · intro m h1 h2 h3
        rcases Nat.eq_or_lt_of_le h1 with rfl | h1'
        · rcases hdisj with rfl | ⟨h4, _, h5⟩
          · omega
          · omega
        · exact hstrict m (by omega) (by omega) h3

/-- C5: for every assignment of penalty scores to the 8 mask candidates,
`evaluate_all_masks` (of `qr_core.py`) returns all 8 scores in order, a best
mask below 8 whose score is the returned best score, the best score is the
minimum of the 8 scores, and every id below the returned one scores strictly
worse -- i.e. ties are broken towards the lowest id. -/
theorem C5_evaluate_all_masks_min (score : Nat → Nat) :
    ∃ bm bs,
      qr_core.evaluate_all_masks score =
        (some bm, some bs, (List.range 8).map (fun m => (m, score m))) ∧
      bm < 8 ∧ bs = score bm ∧
      (∀ m, m < 8 → bs ≤ score m) ∧
      (∀ m, m < bm → bs < score m) := by
  have hr : List.range 8 = 0 :: List.range' 1 7 := by decide
  have step :
      qr_core.evaluate_all_masks score =
        qr_core.eamLoop score (List.range' 1 7) (some 0) (some (score 0)) [(0, score 0)] := by
    unfold qr_core.evaluate_all_masks
    rw [hr]
    simp [qr_core.eamLoop]
  obtain ⟨bm, bs, hrun, hb, hble, hdisj, hmin, hstrict⟩ :=
    eamLoop_spec score 7 1 0 (score 0) [(0, score 0)] rfl (by omega)
  refine ⟨bm, bs, ?_, ?_, hb, ?_, ?_⟩
  · rw [step, hrun, hr, List.map_cons]
    rfl
  · rcases hdisj with rfl | ⟨_, h, _⟩ <;> omega
  · intro m hm
    rcases Nat.eq_zero_or_pos m with rfl | hpos
    · rcases hdisj with rfl | ⟨_, _, h⟩
      · omega
      · omega
    · exact hmin m (by omega) (by omega)
  · intro m hm
    rcases Nat.eq_zero_or_pos m with rfl | hpos
    · rcases hdisj with rfl | ⟨_, _, h⟩
      · omega
      · omega
    · have hbm : bm < 8 := by
        rcases hdisj with rfl | ⟨_, h, _⟩ <;> omega
      exact hstrict m (by omega) (by omega) hm

/-- C5, witness: the theorem applied to the concrete score assignment
`m -> 10 + m`, under which mask 0 wins. -/
theorem C5_evaluate_all_masks_min_witness :
    ∃ bm bs,
      qr_core.evaluate_all_masks (fun m => 10 + m) =
        (some bm, some bs, (List.range 8).map (fun m => (m, 10 + m))) ∧
      bm < 8 ∧ bs = 10 + bm ∧
      (∀ m, m < 8 → bs ≤ 10 + m) ∧
      (∀ m, m < bm → bs < 10 + m) :=
  C5_evaluate_all_masks_min (fun m => 10 + m)

/-! ## C6: failed candidates in core/qr_generator.py's evaluate_all_masks -/

/-- Invariant of the `qr_generator` loop: processing any suffix `ms` of ids
appends one scores entry per id (the real score on success, the sentinel
999999 on failure) and preserves the property that the current best, if any,
satisfies `P` and carries the score of a successfully evaluated candidate. -/
lemma eamTryLoop_spec (result : Nat → Option Nat) (P : Nat → Prop) :
    ∀ (ms : List Nat) (bm? bs? : Option Nat) (acc : List (Nat × Nat)),
    (∀ bm, bm? = some bm → P bm ∧ ∃ s, result bm = some s ∧ bs? = some s) →
    (∀ m ∈ ms, P m) →
    ∃ bm'? bs'?,
      qr_generator.eamLoop result ms bm? bs? acc =
        (bm'?, bs'?, acc ++ ms.map (fun m =>
          (m, match result m with | some s => s | none => 999999))) ∧
      (∀ bm, bm'? = some bm → P bm ∧ ∃ s, result bm = some s ∧ bs'? = some s) := by
  intro ms
  induction ms with
  | nil =>
    intro bm? bs? acc hgood _
    exact ⟨bm?, bs?, by simp [qr_generator.eamLoop], hgood⟩
  | cons m ms ih =>
    intro bm? bs? acc hgood hP
    cases hm : result m with
    | none =>
      obtain ⟨bm', bs', hrun, hgood'⟩ :=
        ih bm? bs? (acc ++ [(m, 999999)]) hgood (fun x hx => hP x (by simp [hx]))
      refine ⟨bm', bs', ?_, hgood'⟩
      simp only [qr_generator.eamLoop, hm]
      rw [hrun]
      simp [hm, List.append_assoc]
    | some s =>
      have hPm : P m := hP m (by simp)
      cases hbs : bs? with
      | none =>
        obtain ⟨bm', bs', hrun, hgood'⟩ :=
          ih (some m) (some s) (acc ++ [(m, s)])
            (fun x hx => by
              refine ⟨by simp_all, s, ?_, rfl⟩
              simp only [Option.some.injEq] at hx
              rw [← hx, hm])
            (fun x hx => hP x (by simp [hx]))
        refine ⟨bm', bs', ?_, hgood'⟩
        simp only [qr_generator.eamLoop, hm, hbs]
        rw [hrun]
        simp [hm, List.append_assoc]
      | some b =>
        subst hbs
        by_cases hcmp : s < b
        · obtain ⟨bm', bs', hrun, hgood'⟩ :=
            ih (some m) (some s) (acc ++ [(m, s)])
              (fun x hx => by
                refine ⟨by simp_all, s, ?_, rfl⟩
                simp only [Option.some.injEq] at hx
                rw [← hx, hm])
              (fun x hx => hP x (by simp [hx]))
          refine ⟨bm', bs', ?_, hgood'⟩
          simp only [qr_generator.eamLoop, hm, if_pos hcmp]
          rw [hrun]
          simp [hm, List.append_assoc]
        · obtain ⟨bm', bs', hrun, hgood'⟩ :=
            ih bm? (some b) (acc ++ [(m, s)]) hgood
              (fun x hx => hP x (by simp [hx]))
          refine ⟨bm', bs', ?_, hgood'⟩
          simp only [qr_generator.eamLoop, hm, if_neg hcmp]
          rw [hrun]
          simp [hm, List.append_assoc]

/-- C6, counterexample: a failing candidate is not excluded from scoring --
the `except` handler records the arbitrary sentinel 999999 in the scores
dictionary (and nothing flags the failure to the caller): with candidate 3
failing and all others scoring 100, the scores table contains `(3, 999999)`. -/
theorem C6_failed_candidate_counterexample :
    qr_generator.evaluate_all_masks (fun m => if m = 3 then none else some 100) =
      (some 0, some 100,
        [(0, 100), (1, 100), (2, 100), (3, 999999), (4, 100), (5, 100), (6, 100), (7, 100)]) := by
  decide

/-- C6, amended: in `core/qr_generator.py`, a candidate whose evaluation
fails is recorded in the scores dictionary with the sentinel score 999999
(not reported as a failure), is never selected as best mask (the returned
best, when present, is a candidate below 8 whose evaluation succeeded and
whose real score is the returned best score), and does not abort the batch:
all 8 candidates always get a scores entry. -/
theorem C6_failed_candidate_amended (result : Nat → Option Nat) :
    (qr_generator.evaluate_all_masks result).2.2 =
      (List.range 8).map (fun m =>
        (m, match result m with | some s => s | none => 999999)) ∧
    (∀ bm, (qr_generator.evaluate_all_masks result).1 = some bm →
      bm < 8 ∧ ∃ s, result bm = some s ∧
        (qr_generator.evaluate_all_masks result).2.1 = some s) := by
  obtain ⟨bm', bs', hrun, hgood⟩ :=
    eamTryLoop_spec result (fun m => m < 8) (List.range 8) none none []
      (fun bm h => by simp at h) (fun m hm => List.mem_range.mp hm)
  unfold qr_generator.evaluate_all_masks
  rw [hrun]
  exact ⟨rfl, fun bm h => hgood bm h⟩

/-- C6, witness: with every candidate succeeding at score 5, the best mask is
0; applying the theorem at that assignment certifies that the best candidate
evaluated successfully. -/
theorem C6_failed_candidate_amended_witness :
    0 < 8 ∧ ∃ s, (fun _ : Nat => some 5) 0 = some s ∧
      (qr_generator.evaluate_all_masks (fun _ => some 5)).2.1 = some s :=
  (C6_failed_candidate_amended (fun _ => some 5)).2 0 (by decide)

/-! ## C1: machinery for the placement sequencer -/

/-- Either the singleton cell `(r, c)` when it passes the bounds/mask test,
or nothing. -/
def entryCell (size : Nat) (mask : Nat → Nat → Bool) (c r : Nat) : List (Nat × Nat) :=
  if decide (r < size) && decide (c < size) && !mask r c then [(r, c)] else []

lemma dmLoop_zero (size : Nat) (mask : Nat → Nat → Bool) (up : Bool) :
    dmLoop size mask 0 up = [] := by
  rw [dmLoop]
  norm_num

lemma dmLoop_six (size : Nat) (mask : Nat → Nat → Bool) (up : Bool) :
    dmLoop size mask 6 up = pairBlock size mask 5 up ++ dmLoop size mask 3 (!up) := by
  rw [dmLoop]
  norm_num

lemma dmLoop_pos (size : Nat) (mask : Nat → Nat → Bool) (col : Nat) (up : Bool)
    (h0 : col ≠ 0) (h6 : col ≠ 6) :
    dmLoop size mask col up = pairBlock size mask col up ++ dmLoop size mask (col - 2) (!up) := by
  rw [dmLoop]
  simp [h0, h6]

lemma covCols_zero : covCols 0 = [] := by
  rw [covCols]
  norm_num

lemma covCols_six : covCols 6 = 5 :: 4 :: covCols 3 := by
  rw [covCols]
  norm_num

lemma covCols_pos (col : Nat) (h0 : col ≠ 0) (h6 : col ≠ 6) :
    covCols col = col :: (col - 1) :: covCols (col - 2) := by
  rw [covCols]
  simp [h0, h6]

lemma covCols_six_eq : covCols 6 = [5, 4, 3, 2, 1, 0] := by
  rw [covCols_six, covCols_pos 3 (by omega) (by omega), covCols_pos 1 (by omega) (by omega)]
  norm_num
  exact covCols_zero

lemma flatMap_entryCell (size : Nat) (mask : Nat → Nat → Bool) (c : Nat) (l : List Nat) :
    l.flatMap (entryCell size mask c) =
      (l.filter (fun r => decide (r < size) && decide (c < size) && !mask r c)).map
        (fun r => (r, c)) := by
  induction l with
  | nil => rfl
  | cons x l ih =>
    rw [List.flatMap_cons, List.filter_cons]
    by_cases h : (decide (x < size) && decide (c < size) && !mask x c) = true
    · rw [entryCell, if_pos h, if_pos h, List.map_cons, ih]
      rfl
    · rw [entryCell, if_neg h, if_neg h, ih]
      rfl

lemma pairBlock_eq_flatMap (size : Nat) (mask : Nat → Nat → Bool) (c2 : Nat) (up : Bool) :
    pairBlock size mask c2 up =
      (List.range size).flatMap (fun i =>
        entryCell size mask c2 (rIdx size up i) ++
        entryCell size mask (c2 - 1) (rIdx size up i)) := by
  unfold pairBlock
  apply congrArg
  funext i
  by_cases h1 : (decide (rIdx size up i < size) && decide (c2 < size) &&
      !mask (rIdx size up i) c2) = true <;>
    by_cases h2 : (decide (rIdx size up i < size) && decide (c2 - 1 < size) &&
        !mask (rIdx size up i) (c2 - 1)) = true <;>
      simp [entryCell, List.filter_cons, h1, h2]

lemma map_upward_perm (size : Nat) :
    ((List.range size).map (fun i => size - 1 - i)).Perm (List.range size) := by
  have h := List.reverse_range' 0 size
  rw [← List.range_eq_range'] at h
  simp only [Nat.zero_add] at h
  rw [← h]
  exact List.reverse_perm _

lemma flatMap_entry_perm (size : Nat) (mask : Nat → Nat → Bool) (c : Nat) (up : Bool) :
    ((List.range size).flatMap fun i => entryCell size mask c (rIdx size up i)).Perm
      (colCells size mask c) := by
  cases up with
  | false =>
    rw [show ((List.range size).flatMap fun i => entryCell size mask c (rIdx size false i)) =
        (List.range size).flatMap (entryCell size mask c) from rfl]
    rw [flatMap_entryCell]
    exact List.Perm.refl _
  | true =>
    rw [show ((List.range size).flatMap fun i => entryCell size mask c (rIdx size true i)) =
        ((List.range size).map (fun i => size - 1 - i)).flatMap (entryCell size mask c) from by
      rw [List.flatMap_map]
      rfl]
    refine ((map_upward_perm size).flatMap_right _).trans ?_
    rw [flatMap_entryCell]
    exact List.Perm.refl _

lemma pairBlock_perm (size : Nat) (mask : Nat → Nat → Bool) (c2 : Nat) (up : Bool) :
    (pairBlock size mask c2 up).Perm
      (colCells size mask c2 ++ colCells size mask (c2 - 1)) := by
  rw [pairBlock_eq_flatMap]
  exact ((List.flatMap_append_perm _ _ _).symm).trans
    (List.Perm.append (flatMap_entry_perm size mask c2 up)
      (flatMap_entry_perm size mask (c2 - 1) up))

lemma mem_colCells (size : Nat) (mask : Nat → Nat → Bool) (c : Nat) (p : Nat × Nat) :
    p ∈ colCells size mask c ↔
      p.1 < size ∧ c < size ∧ mask p.1 c = false ∧ p.2 = c := by
  rcases p with ⟨r', c'⟩
  simp only [colCells, List.mem_map, List.mem_filter, List.mem_range, Bool.and_eq_true,
    decide_eq_true_eq, Bool.not_eq_true', Prod.mk.injEq]
  constructor
  · rintro ⟨a, ⟨ha, ⟨_, hc⟩, hm⟩, rfl, rfl⟩
    exact ⟨ha, hc, hm, rfl⟩
  · rintro ⟨ha, hc, hm, rfl⟩
    exact ⟨r', ⟨ha, ⟨ha, hc⟩, hm⟩, rfl, rfl⟩

lemma colCells_nodup (size : Nat) (mask : Nat → Nat → Bool) (c : Nat) :
    (colCells size mask c).Nodup := by
  unfold colCells
  refine List.Nodup.map ?_ ((List.nodup_range size).filter _)
  intro a b h
  simpa using h

lemma covCols_le (col : Nat) : ∀ x ∈ covCols col, x ≤ col := by
  induction col using Nat.strong_induction_on with
  | _ col ih =>
    intro x hx
    by_cases h0 : col = 0
    · subst h0; rw [covCols_zero] at hx; simp at hx
    by_cases h6 : col = 6
    · subst h6
      rw [covCols_six] at hx
      simp only [List.mem_cons] at hx
      rcases hx with rfl | rfl | hx
      · omega
      · omega
      · have := ih 3 (by omega) x (by simpa using hx)
        omega
    · rw [covCols_pos col h0 h6] at hx
      simp only [List.mem_cons] at hx
      rcases hx with rfl | rfl | hx
      · omega
      · omega
      · have := ih (col - 2) (by omega) x (by simpa using hx)
        omega

lemma covCols_pairwise (col : Nat) : (covCols col).Pairwise (fun a b => b < a) := by
  induction col using Nat.strong_induction_on with
  | _ col ih =>
    by_cases h0 : col = 0
    · subst h0; rw [covCols_zero]; exact List.Pairwise.nil
    by_cases h6 : col = 6
    · subst h6
      rw [covCols_six]
      refine List.Pairwise.cons ?_ (List.Pairwise.cons ?_ (ih 3 (by omega)))
      · intro y hy
        simp only [List.mem_cons] at hy
        rcases hy with rfl | hy
        · omega
        · have := covCols_le 3 y hy
          omega
      · intro y hy
        have := covCols_le 3 y hy
        omega
    · rw [covCols_pos col h0 h6]
      refine List.Pairwise.cons ?_ (List.Pairwise.cons ?_ (ih (col - 2) (by omega)))
      · intro y hy
        simp only [List.mem_cons] at hy
        rcases hy with rfl | hy
        · omega
        · have := covCols_le (col - 2) y hy
          omega
      · intro y hy
        have hyle := covCols_le (col - 2) y hy
        by_cases hc1 : col = 1
        · subst hc1
          rw [show (1 : Nat) - 2 = 0 from rfl, covCols_zero] at hy
          simp at hy
        · omega

lemma coords_nodup (size : Nat) (mask : Nat → Nat → Bool) (col : Nat) :
    ((covCols col).flatMap (colCells size mask)).Nodup := by
  rw [List.nodup_flatMap]
  refine ⟨fun c _ => colCells_nodup size mask c, ?_⟩
  refine (covCols_pairwise col).imp ?_
  intro a b hab
  rw [Function.onFun, List.disjoint_left]
  intro p hpa hpb
  have ha := ((mem_colCells size mask a p).mp hpa).2.2.2
  have hb := ((mem_colCells size mask b p).mp hpb).2.2.2
  omega

lemma dmLoop_perm (size : Nat) (mask : Nat → Nat → Bool) :
    ∀ col up, (dmLoop size mask col up).Perm ((covCols col).flatMap (colCells size mask)) := by
  intro col
  induction col using Nat.strong_induction_on with
  | _ col ih =>
    intro up
    by_cases h0 : col = 0
    · subst h0
      rw [dmLoop_zero, covCols_zero]
      exact List.Perm.refl _
    by_cases h6 : col = 6
    · subst h6
      rw [dmLoop_six, covCols_six, List.flatMap_cons, List.flatMap_cons]
      refine ((List.Perm.append (pairBlock_perm size mask 5 up)
        (ih 3 (by omega) (!up))).trans ?_)
      rw [show (5 : Nat) - 1 = 4 from rfl, List.append_assoc]
    · rw [dmLoop_pos size mask col up h0 h6, covCols_pos col h0 h6,
        List.flatMap_cons, List.flatMap_cons]
      refine ((List.Perm.append (pairBlock_perm size mask col up)
        (ih (col - 2) (by omega) (!up))).trans ?_)
      rw [List.append_assoc]


lemma dm_length (size : Nat) (mask : Nat → Nat → Bool) (col : Nat) (up : Bool) :
    (dmLoop size mask col up).length =
      ((covCols col).map (fun c => (colCells size mask c).length)).sum := by
  rw [(dmLoop_perm size mask col up).length_eq, List.length_flatMap]
  rfl

lemma colCells_length (size : Nat) (mask : Nat → Nat → Bool) (c : Nat) :
    (colCells size mask c).length =
      if c < size then nonMasked size mask c else 0 := by
  by_cases h : c < size
  · rw [if_pos h]
    unfold colCells nonMasked
    rw [List.length_map]
    congr 1
    apply List.filter_congr
    intro r hr
    simp [List.mem_range.mp hr, h]
  · rw [if_neg h]
    unfold colCells
    rw [List.length_map]
    have h2 : (List.range size).filter
        (fun r => decide (r < size) && decide (c < size) && !mask r c) = [] := by
      apply List.filter_eq_nil_iff.mpr
      intro a _
      simp [h]
    rw [h2]
    rfl

lemma sum_map_add {α : Type} (l : List α) (f g : α → Nat) :
    (l.map (fun x => f x + g x)).sum = (l.map f).sum + (l.map g).sum := by
  induction l with
  | nil => rfl
  | cons x l ih =>
    simp only [List.map_cons, List.sum_cons, ih]
    omega

lemma nonMasked_masked (size : Nat) (mask : Nat → Nat → Bool) (c : Nat) :
    nonMasked size mask c + ((List.range size).filter (fun r => mask r c)).length = size := by
  have h := List.length_eq_length_filter_add (l := List.range size) (fun r => mask r c)
  rw [List.length_range] at h
  unfold nonMasked
  omega

lemma total_nonMasked (size : Nat) (mask : Nat → Nat → Bool) :
    ((List.range size).map (nonMasked size mask)).sum + count_true size mask =
      size * size := by
  unfold count_true
  rw [← sum_map_add]
  have hcongr : (List.range size).map
      (fun c => nonMasked size mask c + ((List.range size).filter (fun r => mask r c)).length) =
      (List.range size).map (fun _ => size) :=
    List.map_congr_left (fun c _ => nonMasked_masked size mask c)
  rw [hcongr]
  rw [show ((List.range size).map fun _ => size) = List.replicate (List.range size).length size
    from List.map_const (List.range size) size]
  rw [List.sum_replicate, List.length_range, smul_eq_mul]

lemma covCols_sum (f : Nat → Nat) : ∀ k : Nat,
    ((covCols (2 * k + 6)).map f).sum + f 6 = ((List.range (2 * k + 7)).map f).sum := by
  intro k
  induction k with
  | zero =>
    rw [show 2 * 0 + 6 = 6 from rfl, show 2 * 0 + 7 = 7 from rfl, covCols_six_eq,
      show List.range 7 = [0, 1, 2, 3, 4, 5, 6] from by decide]
    simp only [List.map_cons, List.map_nil, List.sum_cons, List.sum_nil]
    omega
  | succ k ih =>
    have hr : List.range (2 * (k + 1) + 7) = (List.range (2 * k + 7) ++ [2 * k + 7]) ++ [2 * k + 8] := by
      rw [show 2 * (k + 1) + 7 = (2 * k + 8) + 1 from by ring, List.range_succ,
        show 2 * k + 8 = (2 * k + 7) + 1 from by ring, List.range_succ]
    rw [show 2 * (k + 1) + 6 = 2 * k + 8 from by ring,
      covCols_pos (2 * k + 8) (by omega) (by omega),
      show 2 * k + 8 - 1 = 2 * k + 7 from by omega,
      show 2 * k + 8 - 2 = 2 * k + 6 from by omega, hr]
    simp only [List.map_cons, List.sum_cons, List.map_append, List.sum_append,
      List.map_nil, List.sum_nil]
    omega

/-! ## C1: the placement-order claim -/

/-- C1, counterexample: with `size = 7` and the all-false (no functional
cells) mask, the zig-zag enumeration returns 42 coordinates -- it
unconditionally skips column 6 -- while `size*size - count_true(mask)` is 49,
so the claimed length identity fails for arbitrary masks. -/
theorem C1_placement_order_counterexample :
    ¬ ((_data_modules_coords 7 (fun _ _ => false)).length =
        7 * 7 - count_true 7 (fun _ _ => false)) := by
  have h : _data_modules_coords 7 (fun _ _ => false) =
      dmLoop 7 (fun _ _ => false) 6 true := rfl
  rw [h, dm_length, covCols_six_eq]
  decide

/-- C1, amended: for every odd `size ≥ 7` (every real QR size is
`21 + 4*(v-1)`, odd and ≥ 21) and every mask that marks all of timing column
6 functional (as every mask built by `build_function_mask` does), the
enumeration `_data_modules_coords(size, mask)` contains no duplicate
coordinates, never includes a coordinate marked functional, and has length
`size*size - count_true(mask)` -- i.e. it covers exactly the non-functional
cells, each exactly once. -/
theorem C1_placement_order_amended (size : Nat) (mask : Nat → Nat → Bool)
    (hodd : size % 2 = 1) (hsize : 7 ≤ size) (h6 : ∀ r, r < size → mask r 6 = true) :
    (_data_modules_coords size mask).Nodup ∧
    (∀ p ∈ _data_modules_coords size mask, mask p.1 p.2 = false) ∧
    (_data_modules_coords size mask).length = size * size - count_true size mask := by
  have hcoords : _data_modules_coords size mask = dmLoop size mask (size - 1) true := rfl
  have hperm := dmLoop_perm size mask (size - 1) true
  refine ⟨?_, ?_, ?_⟩
  · rw [hcoords]
    exact hperm.nodup_iff.mpr (coords_nodup size mask (size - 1))
  · intro p hp
    rw [hcoords] at hp
    have hmem := hperm.mem_iff.mp hp
    rw [List.mem_flatMap] at hmem
    obtain ⟨c, _, hc⟩ := hmem
    obtain ⟨_, _, hm, hpc⟩ := (mem_colCells size mask c p).mp hc
    rw [hpc]
    exact hm
  · rw [hcoords, dm_length]
    have hclt : ∀ c ∈ covCols (size - 1),
        (colCells size mask c).length = nonMasked size mask c := by
      intro c hc
      have hle := covCols_le (size - 1) c hc
      rw [colCells_length, if_pos (by omega)]
    rw [List.map_congr_left hclt]
    obtain ⟨k, hk⟩ : ∃ k, size - 1 = 2 * k + 6 := ⟨(size - 7) / 2, by omega⟩
    rw [hk]
    have hsum := covCols_sum (nonMasked size mask) k
    have hz : nonMasked size mask 6 = 0 := by
      unfold nonMasked
      have he : (List.range size).filter (fun r => !mask r 6) = [] := by
        apply List.filter_eq_nil_iff.mpr
        intro r hr
        simp [h6 r (List.mem_range.mp hr)]
      rw [he]
      rfl
    have htot := total_nonMasked size mask
    have hrange : 2 * k + 7 = size := by omega
    rw [hrange] at hsum
    omega

/-- C1, witness for the amended theorem: size 7 with the mask that marks
exactly column 6 (7 functional cells), giving 42 = 49 - 7 coordinates. -/
theorem C1_placement_order_witness :
    7 % 2 = 1 ∧ 7 ≤ 7 ∧ (∀ r, r < 7 → (fun _ c => decide (c = 6)) r 6 = true) ∧
      ((_data_modules_coords 7 (fun _ c => decide (c = 6))).Nodup ∧
       (∀ p ∈ _data_modules_coords 7 (fun _ c => decide (c = 6)),
         (fun _ c => decide (c = 6)) p.1 p.2 = false) ∧
       (_data_modules_coords 7 (fun _ c => decide (c = 6))).length =
         7 * 7 - count_true 7 (fun _ c => decide (c = 6))) :=
  ⟨by decide, by decide, by decide,
    C1_placement_order_amended 7 (fun _ c => decide (c = 6)) (by decide) (by decide) (by decide)⟩

end QRSpec
